import Mathlib

/-!
Verification of the action-dispatch state machine and the fuzzy-filter list
engine of the `pman` terminal session/worktree picker.

The embedding follows the Rust sources:
 * `src/actions/action.rs`   — the `Action` sum type and dialog callback tags
 * `src/tui/event.rs`        — `key_to_action`
 * `src/app.rs`              — `App::handle_action` / `execute_command` (router)
 * `src/components/*.rs`     — the four picker components

The `FuzzyList` engine, the `InputDialog`/`ConfirmDialog` components, the data
models (`TmuxSession`, `GitWorktree`, `PaletteCommand`) and the collaborator
integrations (tmux, git, nvim, terminal) are not part of the provided sources;
they are modelled from the specification (sections 3, 4.1, 4.3, 4.4 and 6) and
each such definition is marked `Modelled from the spec:` in its doc comment.
Collaborator calls are represented by an `Env` of call results plus an explicit
trace of emitted `Call`s, so that theorems can speak about which external
operations a dispatch performs.
-/

namespace Pman

/-- Error type for collaborator failures: one propagated kind carrying a
message, mirroring the repository-wide `error::Result` (spec section 7). -/
structure Err where
  msg : String
deriving DecidableEq, Repr

/-- Paths are modelled as lists of path segments; the last segment plays the
role of `Path::file_name`. -/
abbrev ModelPath := List String

/-- Modelled from the spec: a tmux session entry, `list_sessions() -> ordered
sequence of {name, ...}` (spec section 6); only the name is consumed by the
core. -/
structure TmuxSession where
  name : String
deriving DecidableEq, Repr

/-- Modelled from the spec: search text of a session item; the session is
identified by its name. -/
def TmuxSession.searchText (s : TmuxSession) : String := s.name

/-- Modelled from the spec: a git worktree entry,
`{path, branch, is_main, has_changes}` (spec section 6). -/
structure GitWorktree where
  path : ModelPath
  branch : String
  is_main : Bool
  has_changes : Bool
deriving DecidableEq, Repr

/-- Modelled from the spec: search text of a worktree item; the branch names
the worktree in every user-facing message of `worktree_picker.rs`. -/
def GitWorktree.searchText (w : GitWorktree) : String := w.branch

/-- A directory entry of the file picker, from `src/components/file_picker.rs`
(`FileEntry { path, is_dir, name }`). -/
structure FileEntry where
  path : ModelPath
  is_dir : Bool
  name : String
deriving DecidableEq, Repr

/-- Search text of a file entry, from `FileEntry::search_text` in
`src/components/file_picker.rs`: the bare name. -/
def FileEntry.searchText (e : FileEntry) : String := e.name

/-- The palette commands, exactly the variants matched exhaustively by
`App::execute_command` in `src/app.rs`. -/
inductive PaletteCommand where
  | openFile
  | newSession
  | killSession
  | listWorktrees
  | createWorktree
  | gitStatus
deriving DecidableEq, Repr

/-- Modelled from the spec: display/search text of a palette command (the
concrete strings live in the missing `models` module; the claims are
independent of the particular words). -/
def PaletteCommand.searchText : PaletteCommand → String
  | .openFile => "Open File"
  | .newSession => "New Session"
  | .killSession => "Kill Session"
  | .listWorktrees => "List Worktrees"
  | .createWorktree => "Create Worktree"
  | .gitStatus => "Git Status"

/-- Modelled from the spec: the full palette command list shown in a git
repository (spec section 4.4 enumerates all six second-level commands). -/
def PaletteCommand.all : List PaletteCommand :=
  [.openFile, .newSession, .killSession, .listWorktrees, .createWorktree, .gitStatus]

/-- Modelled from the spec: the palette commands available outside a git
repository (`is_git_repo` gates the git-specific commands, spec section 6). -/
def PaletteCommand.nonGitCommands : List PaletteCommand :=
  [.openFile, .newSession, .killSession]

/-- Callback tags of input dialogs, from `src/actions/action.rs`
(`enum InputCallback`). -/
inductive InputCallback where
  | createSession
  | createWorktree
deriving DecidableEq, Repr

/-- Callback tags of confirm dialogs, from `src/actions/action.rs`
(`enum ConfirmCallback`). -/
inductive ConfirmCallback where
  | deleteWorktree (path : ModelPath)
  | mergeWorktree (path : ModelPath)
  | killSession (name : String)
deriving DecidableEq, Repr

/-- The closed action union, from `src/actions/action.rs` (`enum Action`). -/
inductive Action where
  | quit
  | goBack
  | render
  | moveUp
  | moveDown
  | pageUp
  | pageDown
  | character (c : Char)
  | backspace
  | enter
  | escape
  | switchSession (name : String)
  | createSession (name : String) (path : Option ModelPath)
  | killSession (name : String)
  | openFile (path : ModelPath)
  | openBuffer (socket : ModelPath) (bufnr : Int)
  | switchWorktree (path : ModelPath)
  | createWorktree (branch : String)
  | deleteWorktree (path : ModelPath)
  | mergeWorktree (path : ModelPath)
  | executeCommand (cmd : PaletteCommand)
  | showInput (title : String) (callback : InputCallback)
  | showConfirm (title : String) (message : String) (callback : ConfirmCallback)
  | closeDialog
  | showSessionPicker
  | showCommandPalette
  | showFilePicker
  | showWorktreePicker
  | showBufferPicker
  | showGitDiff
deriving DecidableEq, Repr

/-- Key codes of the terminal events consumed by `key_to_action` in
`src/tui/event.rs` (the crossterm codes that occur in the match, plus the
arrow and tab keys needed to exercise the fall-through arm). -/
inductive KeyCode where
  | char (c : Char)
  | esc
  | enter
  | up
  | down
  | left
  | right
  | pageUp
  | pageDown
  | backspace
  | tab
deriving DecidableEq, Repr

/-- A key press: its code and whether the Ctrl modifier is held (the only
modifier `key_to_action` inspects). -/
structure KeyEvent where
  code : KeyCode
  ctrl : Bool
deriving DecidableEq, Repr

/-- Embedding of `key_to_action` from `src/tui/event.rs`.  The arms are tried
in source order.  Note the Rust semantics of the arm
`KeyCode::Up | KeyCode::Char('k') if key.modifiers.contains(CONTROL)`:
the guard applies to the WHOLE or-pattern, so an unmodified `Up` (or `Down`)
key falls through these arms and, not being a `Char`, ends in the wildcard
arm returning `None`. -/
def keyToAction (k : KeyEvent) : Option Action :=
  if k.code = .char 'c' ∧ k.ctrl then some .quit
  else if k.code = .char 'q' then some .quit
  else if k.code = .esc then some .escape
  else if k.code = .enter then some .enter
  else if (k.code = .up ∨ k.code = .char 'k') ∧ k.ctrl then some .moveUp
  else if (k.code = .down ∨ k.code = .char 'j') ∧ k.ctrl then some .moveDown
  else if k.code = .pageUp then some .pageUp
  else if k.code = .pageDown then some .pageDown
  else if k.code = .backspace then some .backspace
  else
    match k.code with
    | .char c => some (.character c)
    | _ => none

/-- Modelled from the spec: the (case-sensitive) subsequence test on character
lists — the query characters must appear, in order, not necessarily
contiguously, in the candidate (spec section 4.1). -/
def subseqCheck : List Char → List Char → Bool
  | [], _ => true
  | _ :: _, [] => false
  | a :: as, b :: bs => if a = b then subseqCheck as bs else subseqCheck (a :: as) bs

/-- Modelled from the spec: the case-insensitive fuzzy match of section 4.1 —
both sides are lowercased and the query must be a subsequence of the search
text. -/
def ciFuzzyMatch (q s : String) : Bool :=
  subseqCheck (q.data.map Char.toLower) (s.data.map Char.toLower)

/-- The propositional counterpart of `ciFuzzyMatch`: the lowercased query is a
sublist (order-preserving, not necessarily contiguous) of the lowercased
search text. -/
def CISubseq (q s : String) : Prop :=
  List.Sublist (q.data.map Char.toLower) (s.data.map Char.toLower)

/-- Modelled from the spec: the filtered view of an item list under a query —
items retained iff they fuzzy-match, in original order (spec section 4.1). -/
def filteredList {T : Type} (sf : T → String) (items : List T) (q : String) : List T :=
  items.filter (fun t => ciFuzzyMatch q (sf t))

/-- Modelled from the spec: the `FuzzyList<T>` engine state (spec section 3):
the unfiltered item collection in insertion order, the query, and the
selection cursor.  The filtered view is recomputed from items and query
whenever either changes (`filteredOf` below). -/
structure FuzzyList (T : Type) where
  items : List T
  query : String
  cursor : Option Nat
deriving DecidableEq, Repr

/-- The current filtered view of a fuzzy list. -/
def FuzzyList.filteredOf {T : Type} (sf : T → String) (fl : FuzzyList T) : List T :=
  filteredList sf fl.items fl.query

/-- Modelled from the spec: `FuzzyList::new` — empty items, empty query, no
selection. -/
def FuzzyList.new {T : Type} : FuzzyList T :=
  { items := [], query := "", cursor := none }

/-- Cursor value after a recompute: index 0 if the filtered view is non-empty,
else none (spec section 4.1). -/
def FuzzyList.resetCursor {T : Type} (sf : T → String) (items : List T)
    (q : String) : Option Nat :=
  if (filteredList sf items q).isEmpty then none else some 0

/-- Modelled from the spec: `set_items` replaces the backing collection,
recomputes, and selects index 0 if any items remain, else none. -/
def FuzzyList.setItems {T : Type} (sf : T → String) (fl : FuzzyList T)
    (its : List T) : FuzzyList T :=
  { items := its, query := fl.query, cursor := FuzzyList.resetCursor sf its fl.query }

/-- Modelled from the spec: `push_char` appends one character to the query and
resets the cursor to the top match. -/
def FuzzyList.pushChar {T : Type} (sf : T → String) (fl : FuzzyList T)
    (c : Char) : FuzzyList T :=
  let q := fl.query.push c
  { items := fl.items, query := q, cursor := FuzzyList.resetCursor sf fl.items q }

/-- Modelled from the spec: `pop_char` removes the last query character and
resets the cursor to the top match. -/
def FuzzyList.popChar {T : Type} (sf : T → String) (fl : FuzzyList T) : FuzzyList T :=
  let q := String.mk fl.query.data.dropLast
  { items := fl.items, query := q, cursor := FuzzyList.resetCursor sf fl.items q }

/-- Modelled from the spec: `clear_query` empties the query and resets the
cursor to 0 (no filter). -/
def FuzzyList.clearQuery {T : Type} (sf : T → String) (fl : FuzzyList T) : FuzzyList T :=
  { items := fl.items, query := "", cursor := FuzzyList.resetCursor sf fl.items "" }

/-- Modelled from the spec: `move_up` moves the cursor up by one, with no
wraparound at the top. -/
def FuzzyList.moveUp {T : Type} (fl : FuzzyList T) : FuzzyList T :=
  { fl with cursor := fl.cursor.map (fun i => i - 1) }

/-- Modelled from the spec: `move_down` moves the cursor down by one, clamped
to the last filtered index, with no wraparound at the bottom. -/
def FuzzyList.moveDown {T : Type} (sf : T → String) (fl : FuzzyList T) : FuzzyList T :=
  { fl with cursor := fl.cursor.map (fun i => min (i + 1) ((fl.filteredOf sf).length - 1)) }

/-- Modelled from the spec: `page_up(n)` moves the cursor up by `n`, clamped
to 0. -/
def FuzzyList.pageUp {T : Type} (fl : FuzzyList T) (n : Nat) : FuzzyList T :=
  { fl with cursor := fl.cursor.map (fun i => i - n) }

/-- Modelled from the spec: `page_down(n)` moves the cursor down by `n`,
clamped to the last filtered index. -/
def FuzzyList.pageDown {T : Type} (sf : T → String) (fl : FuzzyList T) (n : Nat) : FuzzyList T :=
  { fl with cursor := fl.cursor.map (fun i => min (i + n) ((fl.filteredOf sf).length - 1)) }

/-- Modelled from the spec: `selected()` returns the item at the cursor in the
filtered view, or none if the view is empty. -/
def FuzzyList.selected {T : Type} (sf : T → String) (fl : FuzzyList T) : Option T :=
  fl.cursor.bind (fun i => (fl.filteredOf sf)[i]?)

/-- The boolean subsequence check agrees with `List.Sublist`. -/
theorem subseqCheck_iff_sublist (l₁ l₂ : List Char) :
    subseqCheck l₁ l₂ = true ↔ List.Sublist l₁ l₂ := by
  induction l₂ generalizing l₁ with
  | nil =>
    cases l₁ with
    | nil => simp [subseqCheck]
    | cons a as => simp [subseqCheck]
  | cons b bs ih =>
    cases l₁ with
    | nil => simp [subseqCheck, List.nil_sublist]
    | cons a as =>
      by_cases hab : a = b
      · subst hab
        rw [show subseqCheck (a :: as) (a :: bs) = subseqCheck as bs from if_pos rfl,
          List.cons_sublist_cons]
        exact ih as
      · rw [show subseqCheck (a :: as) (b :: bs) = subseqCheck (a :: as) bs from if_neg hab]
        constructor
        · intro h
          exact List.Sublist.cons b ((ih (a :: as)).mp h)
        · intro h
          cases h with
          | cons _ h2 => exact (ih (a :: as)).mpr h2
          | cons₂ => exact absurd rfl hab

/-- The executable fuzzy match agrees with the propositional case-insensitive
subsequence relation. -/
theorem ciFuzzyMatch_iff (q s : String) :
    ciFuzzyMatch q s = true ↔ CISubseq q s :=
  subseqCheck_iff_sublist _ _

/-- Modelled from the spec: the operations of the `FuzzyList` contract whose
arbitrary interleavings the cursor invariant quantifies over (spec
section 8). -/
inductive FLOp (T : Type) where
  | setItems (its : List T)
  | pushChar (c : Char)
  | popChar
  | clearQuery
  | moveUp
  | moveDown
  | pageUp (n : Nat)
  | pageDown (n : Nat)

/-- Apply one `FuzzyList` operation. -/
def applyFLOp {T : Type} (sf : T → String) (fl : FuzzyList T) : FLOp T → FuzzyList T
  | .setItems its => fl.setItems sf its
  | .pushChar c => fl.pushChar sf c
  | .popChar => fl.popChar sf
  | .clearQuery => fl.clearQuery sf
  | .moveUp => fl.moveUp
  | .moveDown => fl.moveDown sf
  | .pageUp n => fl.pageUp n
  | .pageDown n => fl.pageDown sf n

/-- Apply a sequence of `FuzzyList` operations, left to right. -/
def applyFLOps {T : Type} (sf : T → String) (ops : List (FLOp T)) (fl : FuzzyList T) :
    FuzzyList T :=
  ops.foldl (applyFLOp sf) fl

/-- The cursor invariant of spec section 8: the cursor is `none` exactly when
the filtered view is empty, and otherwise indexes into the filtered view. -/
def CursorInv {T : Type} (sf : T → String) (fl : FuzzyList T) : Prop :=
  (fl.cursor = none ↔ fl.filteredOf sf = []) ∧
    ∀ i, fl.cursor = some i → i < (fl.filteredOf sf).length

/-- Any state whose cursor was just recomputed by `resetCursor` satisfies the
cursor invariant. -/
theorem cursorInv_reset {T : Type} (sf : T → String) (its : List T) (q : String) :
    CursorInv sf { items := its, query := q, cursor := FuzzyList.resetCursor sf its q } := by
  unfold CursorInv FuzzyList.resetCursor FuzzyList.filteredOf
  simp only
  by_cases h : (filteredList sf its q).isEmpty
  · rw [if_pos h]
    refine ⟨by simpa [List.isEmpty_iff] using h, ?_⟩
    intro i hi
    exact absurd hi (by simp)
  · rw [if_neg h]
    have hne : filteredList sf its q ≠ [] := by simpa [List.isEmpty_iff] using h
    refine ⟨by simp [hne], ?_⟩
    intro i hi
    have : i = 0 := by simpa using hi.symm
    subst this
    exact List.length_pos.mpr hne

/-- The initial fuzzy list satisfies the cursor invariant. -/
theorem cursorInv_new {T : Type} (sf : T → String) :
    CursorInv sf (FuzzyList.new (T := T)) := by
  refine ⟨by simp [FuzzyList.new, FuzzyList.filteredOf, filteredList], ?_⟩
  intro i hi
  exact absurd hi (by simp [FuzzyList.new])

/-- Cursor-motion operations preserve the cursor invariant. -/
theorem cursorInv_applyFLOp {T : Type} (sf : T → String) (fl : FuzzyList T)
    (op : FLOp T) (h : CursorInv sf fl) : CursorInv sf (applyFLOp sf fl op) := by
  obtain ⟨hiff, hlt⟩ := h
  cases op with
  | setItems its => exact cursorInv_reset sf its fl.query
  | pushChar c => exact cursorInv_reset sf fl.items (fl.query.push c)
  | popChar => exact cursorInv_reset sf fl.items (String.mk fl.query.data.dropLast)
  | clearQuery => exact cursorInv_reset sf fl.items ""
  | moveUp =>
    cases hc : fl.cursor with
    | none =>
      refine ⟨?_, ?_⟩
      · simpa [applyFLOp, FuzzyList.moveUp, FuzzyList.filteredOf, hc] using
          (by simpa [hc] using hiff)
      · intro i hi
        exact absurd hi (by simp [applyFLOp, FuzzyList.moveUp, hc])
    | some i =>
      refine ⟨?_, ?_⟩
      · have hne : fl.filteredOf sf ≠ [] := by
          intro hnil
          have : fl.cursor = none := hiff.mpr hnil
          rw [hc] at this
          exact Option.noConfusion this
        simp [applyFLOp, FuzzyList.moveUp, FuzzyList.filteredOf, hc]
        simpa [FuzzyList.filteredOf] using hne
      · intro j hj
        have hj0 : j = i - 1 := by
          simpa [applyFLOp, FuzzyList.moveUp, hc] using hj.symm
        subst hj0
        have := hlt i hc
        have hle : i - 1 ≤ i := Nat.sub_le i 1
        calc i - 1 ≤ i := hle
          _ < _ := by simpa [applyFLOp, FuzzyList.moveUp, FuzzyList.filteredOf] using this
  | pageUp n =>
    cases hc : fl.cursor with
    | none =>
      refine ⟨?_, ?_⟩
      · simpa [applyFLOp, FuzzyList.pageUp, FuzzyList.filteredOf, hc] using
          (by simpa [hc] using hiff)
      · intro i hi
        exact absurd hi (by simp [applyFLOp, FuzzyList.pageUp, hc])
    | some i =>
      refine ⟨?_, ?_⟩
      · have hne : fl.filteredOf sf ≠ [] := by
          intro hnil
          have : fl.cursor = none := hiff.mpr hnil
          rw [hc] at this
          exact Option.noConfusion this
        simp [applyFLOp, FuzzyList.pageUp, FuzzyList.filteredOf, hc]
        simpa [FuzzyList.filteredOf] using hne
      · intro j hj
        have hj0 : j = i - n := by
          simpa [applyFLOp, FuzzyList.pageUp, hc] using hj.symm
        subst hj0
        have := hlt i hc
        calc i - n ≤ i := Nat.sub_le i n
          _ < _ := by simpa [applyFLOp, FuzzyList.pageUp, FuzzyList.filteredOf] using this
  | moveDown =>
    cases hc : fl.cursor with
    | none =>
      refine ⟨?_, ?_⟩
      · simpa [applyFLOp, FuzzyList.moveDown, FuzzyList.filteredOf, hc] using
          (by simpa [hc] using hiff)
      · intro i hi
        exact absurd hi (by simp [applyFLOp, FuzzyList.moveDown, hc])
    | some i =>
      have hlen : 0 < (fl.filteredOf sf).length := Nat.lt_of_le_of_lt (Nat.zero_le i) (hlt i hc)
      refine ⟨?_, ?_⟩
      · have hne : fl.filteredOf sf ≠ [] := List.length_pos.mp hlen
        simp [applyFLOp, FuzzyList.moveDown, FuzzyList.filteredOf, hc]
        simpa [FuzzyList.filteredOf] using hne
      · intro j hj
        have hj0 : j = min (i + 1) ((fl.filteredOf sf).length - 1) := by
          simpa [applyFLOp, FuzzyList.moveDown, hc] using hj.symm
        subst hj0
        have h1 : min (i + 1) ((fl.filteredOf sf).length - 1) ≤
            (fl.filteredOf sf).length - 1 := Nat.min_le_right _ _
        have h2 : (fl.filteredOf sf).length - 1 < (fl.filteredOf sf).length :=
          Nat.sub_lt hlen Nat.one_pos
        calc min (i + 1) ((fl.filteredOf sf).length - 1)
            ≤ (fl.filteredOf sf).length - 1 := h1
          _ < _ := by simpa [applyFLOp, FuzzyList.moveDown, FuzzyList.filteredOf] using h2
  | pageDown n =>
    cases hc : fl.cursor with
    | none =>
      refine ⟨?_, ?_⟩
      · simpa [applyFLOp, FuzzyList.pageDown, FuzzyList.filteredOf, hc] using
          (by simpa [hc] using hiff)
      · intro i hi
        exact absurd hi (by simp [applyFLOp, FuzzyList.pageDown, hc])
    | some i =>
      have hlen : 0 < (fl.filteredOf sf).length := Nat.lt_of_le_of_lt (Nat.zero_le i) (hlt i hc)
      refine ⟨?_, ?_⟩
      · have hne : fl.filteredOf sf ≠ [] := List.length_pos.mp hlen
        simp [applyFLOp, FuzzyList.pageDown, FuzzyList.filteredOf, hc]
        simpa [FuzzyList.filteredOf] using hne
      · intro j hj
        have hj0 : j = min (i + n) ((fl.filteredOf sf).length - 1) := by
          simpa [applyFLOp, FuzzyList.pageDown, hc] using hj.symm
        subst hj0
        have h1 : min (i + n) ((fl.filteredOf sf).length - 1) ≤
            (fl.filteredOf sf).length - 1 := Nat.min_le_right _ _
        have h2 : (fl.filteredOf sf).length - 1 < (fl.filteredOf sf).length :=
          Nat.sub_lt hlen Nat.one_pos
        calc min (i + n) ((fl.filteredOf sf).length - 1)
            ≤ (fl.filteredOf sf).length - 1 := h1
          _ < _ := by simpa [applyFLOp, FuzzyList.pageDown, FuzzyList.filteredOf] using h2

/-- Any sequence of operations preserves the cursor invariant. -/
theorem cursorInv_applyFLOps {T : Type} (sf : T → String) (ops : List (FLOp T))
    (fl : FuzzyList T) (h : CursorInv sf fl) : CursorInv sf (applyFLOps sf ops fl) := by
  induction ops generalizing fl with
  | nil => exact h
  | cons op rest ih => exact ih _ (cursorInv_applyFLOp sf fl op h)

/-- State of the session picker (`src/components/session_picker.rs`): a fuzzy
list of tmux sessions.  The `TmuxClient` it holds is represented by the
dispatch environment. -/
structure SPState where
  fuzzy : FuzzyList TmuxSession
deriving DecidableEq, Repr

/-- Replace the session items (the pure tail of `SessionPicker::refresh`). -/
def SPState.setItems (sp : SPState) (ss : List TmuxSession) : SPState :=
  { fuzzy := sp.fuzzy.setItems TmuxSession.searchText ss }

/-- Embedding of `SessionPicker::handle_action` from
`src/components/session_picker.rs`. -/
def SPState.handle (sp : SPState) (a : Action) : SPState × Except Err (Option Action) :=
  match a with
  | .moveUp => ({ fuzzy := sp.fuzzy.moveUp }, .ok (some .render))
  | .moveDown => ({ fuzzy := sp.fuzzy.moveDown TmuxSession.searchText }, .ok (some .render))
  | .pageUp => ({ fuzzy := sp.fuzzy.pageUp 10 }, .ok (some .render))
  | .pageDown => ({ fuzzy := sp.fuzzy.pageDown TmuxSession.searchText 10 }, .ok (some .render))
  | .character c =>
    if c = 'd' ∧ sp.fuzzy.query = "" then
      match sp.fuzzy.selected TmuxSession.searchText with
      | some session =>
        (sp, .ok (some (.showConfirm "Delete Session"
          ("Delete session " ++ session.name ++ "?") (.killSession session.name))))
      | none => (sp, .ok none)
    else if c = 'n' ∧ sp.fuzzy.query = "" then
      (sp, .ok (some (.showInput "New Session" .createSession)))
    else
      ({ fuzzy := sp.fuzzy.pushChar TmuxSession.searchText c }, .ok (some .render))
  | .backspace => ({ fuzzy := sp.fuzzy.popChar TmuxSession.searchText }, .ok (some .render))
  | .enter =>
    match sp.fuzzy.selected TmuxSession.searchText with
    | some session => (sp, .ok (some (.switchSession session.name)))
    | none => (sp, .ok none)
  | .escape =>
    if sp.fuzzy.query ≠ "" then
      ({ fuzzy := sp.fuzzy.clearQuery TmuxSession.searchText }, .ok (some .render))
    else
      (sp, .ok (some .goBack))
  | _ => (sp, .ok none)

/-- State of the command palette (`src/components/command_palette.rs`). -/
structure CPState where
  fuzzy : FuzzyList PaletteCommand
  is_git_repo : Bool
deriving DecidableEq, Repr

/-- Embedding of `CommandPalette::refresh`: the item set depends on whether
the working directory is a git repository. -/
def CPState.refresh (cp : CPState) : CPState :=
  let its := if cp.is_git_repo then PaletteCommand.all else PaletteCommand.nonGitCommands
  { cp with fuzzy := cp.fuzzy.setItems PaletteCommand.searchText its }

/-- Embedding of `CommandPalette::new`: probe `is_git_repo`, then refresh. -/
def CPState.new (isRepo : Bool) : CPState :=
  CPState.refresh { fuzzy := FuzzyList.new, is_git_repo := isRepo }

/-- Embedding of `CommandPalette::handle_action` from
`src/components/command_palette.rs`. -/
def CPState.handle (cp : CPState) (a : Action) : CPState × Except Err (Option Action) :=
  match a with
  | .moveUp => ({ cp with fuzzy := cp.fuzzy.moveUp }, .ok (some .render))
  | .moveDown => ({ cp with fuzzy := cp.fuzzy.moveDown PaletteCommand.searchText }, .ok (some .render))
  | .pageUp => ({ cp with fuzzy := cp.fuzzy.pageUp 10 }, .ok (some .render))
  | .pageDown => ({ cp with fuzzy := cp.fuzzy.pageDown PaletteCommand.searchText 10 }, .ok (some .render))
  | .character c =>
    ({ cp with fuzzy := cp.fuzzy.pushChar PaletteCommand.searchText c }, .ok (some .render))
  | .backspace =>
    ({ cp with fuzzy := cp.fuzzy.popChar PaletteCommand.searchText }, .ok (some .render))
  | .enter =>
    match cp.fuzzy.selected PaletteCommand.searchText with
    | some cmd => (cp, .ok (some (.executeCommand cmd)))
    | none => (cp, .ok none)
  | .escape =>
    if cp.fuzzy.query ≠ "" then
      ({ cp with fuzzy := cp.fuzzy.clearQuery PaletteCommand.searchText }, .ok (some .render))
    else
      (cp, .ok (some .goBack))
  | _ => (cp, .ok none)

/-- A raw directory entry as returned by the file system
(`fs::read_dir` in `src/components/file_picker.rs`). -/
structure RawEntry where
  name : String
  isDir : Bool
deriving DecidableEq, Repr

/-- The comparator of `FilePicker::refresh`: directories first, then files,
alphabetically by lowercased name (a boolean `le` for the stable merge sort,
mirroring the stable `sort_by`). -/
def fileEntryLe (a b : FileEntry) : Bool :=
  if a.is_dir = b.is_dir then decide (a.name.toLower ≤ b.name.toLower) else a.is_dir

/-- State of the file picker (`src/components/file_picker.rs`). -/
structure FPState where
  fuzzy : FuzzyList FileEntry
  current_dir : ModelPath
deriving DecidableEq, Repr

/-- Embedding of `FilePicker::refresh`: an optional `..` parent entry followed
by the directory contents with hidden files skipped, directories sorted first
and names compared case-insensitively.  Directory reads are modelled as pure
lookups in the environment (`readDir`), a missing or unreadable directory
yielding no entries, as in the source (`if let Ok(read_dir)`). -/
def FPState.refresh (readDir : ModelPath → Option (List RawEntry)) (fp : FPState) : FPState :=
  let parentEntries : List FileEntry :=
    if fp.current_dir = [] then []
    else [{ path := fp.current_dir.dropLast, is_dir := true, name := ".." }]
  let children : List FileEntry :=
    match readDir fp.current_dir with
    | none => []
    | some raw =>
      let kept := raw.filter (fun e => ¬ e.name.startsWith ".")
      let entries := kept.map (fun e =>
        { path := fp.current_dir ++ [e.name], is_dir := e.isDir, name := e.name })
      entries.mergeSort fileEntryLe
  { fp with fuzzy := fp.fuzzy.setItems FileEntry.searchText (parentEntries ++ children) }

/-- Embedding of `FilePicker::new`: start at the given directory (or its
parent when the start path is not a directory), then refresh. -/
def FPState.new (isDir : ModelPath → Bool) (readDir : ModelPath → Option (List RawEntry))
    (startPath : ModelPath) : FPState :=
  let dir := if isDir startPath then startPath
    else if startPath = [] then ["."] else startPath.dropLast
  FPState.refresh readDir { fuzzy := FuzzyList.new, current_dir := dir }

/-- Embedding of `FilePicker::navigate_to`: set the directory, clear the
query, refresh. -/
def FPState.navigateTo (readDir : ModelPath → Option (List RawEntry)) (fp : FPState)
    (p : ModelPath) : FPState :=
  FPState.refresh readDir
    { fuzzy := fp.fuzzy.clearQuery FileEntry.searchText, current_dir := p }

/-- Embedding of `FilePicker::handle_action` from
`src/components/file_picker.rs`. -/
def FPState.handle (readDir : ModelPath → Option (List RawEntry)) (fp : FPState)
    (a : Action) : FPState × Except Err (Option Action) :=
  match a with
  | .moveUp => ({ fp with fuzzy := fp.fuzzy.moveUp }, .ok (some .render))
  | .moveDown => ({ fp with fuzzy := fp.fuzzy.moveDown FileEntry.searchText }, .ok (some .render))
  | .pageUp => ({ fp with fuzzy := fp.fuzzy.pageUp 10 }, .ok (some .render))
  | .pageDown => ({ fp with fuzzy := fp.fuzzy.pageDown FileEntry.searchText 10 }, .ok (some .render))
  | .character c =>
    ({ fp with fuzzy := fp.fuzzy.pushChar FileEntry.searchText c }, .ok (some .render))
  | .backspace =>
    ({ fp with fuzzy := fp.fuzzy.popChar FileEntry.searchText }, .ok (some .render))
  | .enter =>
    match fp.fuzzy.selected FileEntry.searchText with
    | some entry =>
      if entry.is_dir then
        (FPState.navigateTo readDir fp entry.path, .ok (some .render))
      else
        (fp, .ok (some (.openFile entry.path)))
    | none => (fp, .ok none)
  | .escape =>
    if fp.fuzzy.query ≠ "" then
      ({ fp with fuzzy := fp.fuzzy.clearQuery FileEntry.searchText }, .ok (some .render))
    else
      (fp, .ok (some .goBack))
  | _ => (fp, .ok none)

/-- State of the worktree picker (`src/components/worktree_picker.rs`): a
fuzzy list of worktrees.  The picker's own `Option<GitClient>` is re-derived
from the dispatch environment (it is constructed from the same working
directory, and the environment is constant during a dispatch). -/
structure WPState where
  fuzzy : FuzzyList GitWorktree
deriving DecidableEq, Repr

/-- Replace the worktree items (the pure tail of `WorktreePicker::refresh`). -/
def WPState.setItems (wp : WPState) (wts : List GitWorktree) : WPState :=
  { fuzzy := wp.fuzzy.setItems GitWorktree.searchText wts }

/-- Embedding of `WorktreePicker::handle_action` from
`src/components/worktree_picker.rs`. -/
def WPState.handle (wp : WPState) (a : Action) : WPState × Except Err (Option Action) :=
  match a with
  | .moveUp => ({ fuzzy := wp.fuzzy.moveUp }, .ok (some .render))
  | .moveDown => ({ fuzzy := wp.fuzzy.moveDown GitWorktree.searchText }, .ok (some .render))
  | .pageUp => ({ fuzzy := wp.fuzzy.pageUp 10 }, .ok (some .render))
  | .pageDown => ({ fuzzy := wp.fuzzy.pageDown GitWorktree.searchText 10 }, .ok (some .render))
  | .character c =>
    if c = 'd' ∧ wp.fuzzy.query = "" then
      match wp.fuzzy.selected GitWorktree.searchText with
      | some wt =>
        if wt.is_main then
          (wp, .ok none)
        else if wt.has_changes then
          (wp, .ok (some (.showConfirm "Delete Worktree"
            ("Worktree " ++ wt.branch ++ " has uncommitted changes. Delete anyway?")
            (.deleteWorktree wt.path))))
        else
          (wp, .ok (some (.showConfirm "Delete Worktree"
            ("Delete worktree " ++ wt.branch ++ "?") (.deleteWorktree wt.path))))
      | none => (wp, .ok none)
    else if c = 'm' ∧ wp.fuzzy.query = "" then
      match wp.fuzzy.selected GitWorktree.searchText with
      | some wt =>
        if wt.is_main then
          (wp, .ok none)
        else
          (wp, .ok (some (.showConfirm "Merge to Main"
            ("Merge " ++ wt.branch ++ " to main and delete worktree?")
            (.mergeWorktree wt.path))))
      | none => (wp, .ok none)
    else if c = 'n' ∧ wp.fuzzy.query = "" then
      (wp, .ok (some (.showInput "New Worktree Branch" .createWorktree)))
    else
      ({ fuzzy := wp.fuzzy.pushChar GitWorktree.searchText c }, .ok (some .render))
  | .backspace => ({ fuzzy := wp.fuzzy.popChar GitWorktree.searchText }, .ok (some .render))
  | .enter =>
    match wp.fuzzy.selected GitWorktree.searchText with
    | some wt => (wp, .ok (some (.switchWorktree wt.path)))
    | none => (wp, .ok none)
  | .escape =>
    if wp.fuzzy.query ≠ "" then
      ({ fuzzy := wp.fuzzy.clearQuery GitWorktree.searchText }, .ok (some .render))
    else
      (wp, .ok (some .goBack))
  | _ => (wp, .ok none)

/-- Modelled from the spec: the input dialog of section 4.3 — a title, a
callback tag, and the in-progress text buffer. -/
structure InputDialogState where
  title : String
  callback : InputCallback
  text : String
deriving DecidableEq, Repr

/-- Modelled from the spec: `InputDialog::new` starts with an empty buffer. -/
def InputDialogState.new (title : String) (cb : InputCallback) : InputDialogState :=
  { title := title, callback := cb, text := "" }

/-- Modelled from the spec: the domain action built from an input dialog's
callback tag and accumulated text on `Enter` (a new-session input produces
`CreateSession(text, None)`, a new-worktree input produces
`CreateWorktree(text)`). -/
def resolveInput (cb : InputCallback) (text : String) : Action :=
  match cb with
  | .createSession => .createSession text none
  | .createWorktree => .createWorktree text

/-- Modelled from the spec: the input dialog handler of section 4.3 —
characters and backspace edit the buffer, `Enter` resolves to the domain
action, `Escape` resolves to close (discarding the input), everything else is
ignored. -/
def InputDialogState.handle (d : InputDialogState) (a : Action) :
    InputDialogState × Option Action :=
  match a with
  | .character c => ({ d with text := d.text.push c }, some .render)
  | .backspace => ({ d with text := String.mk d.text.data.dropLast }, some .render)
  | .enter => (d, some (resolveInput d.callback d.text))
  | .escape => (d, some .closeDialog)
  | _ => (d, none)

/-- Modelled from the spec: the confirm dialog of section 4.3 — a title, a
message, a callback tag, and the binary selection (default: yes). -/
structure ConfirmDialogState where
  title : String
  message : String
  callback : ConfirmCallback
  selected : Bool
deriving DecidableEq, Repr

/-- Modelled from the spec: `ConfirmDialog::new` defaults the selection to
yes. -/
def ConfirmDialogState.new (title message : String) (cb : ConfirmCallback) :
    ConfirmDialogState :=
  { title := title, message := message, callback := cb, selected := true }

/-- Modelled from the spec: the domain action matching a confirm dialog's
callback tag. -/
def resolveConfirm (cb : ConfirmCallback) : Action :=
  match cb with
  | .deleteWorktree p => .deleteWorktree p
  | .mergeWorktree p => .mergeWorktree p
  | .killSession n => .killSession n

/-- Modelled from the spec: the confirm dialog handler of section 4.3 —
navigation toggles the selection, `y`/`n` set it, `Enter` resolves to the
callback's domain action only when the selection is yes and otherwise closes,
`Escape` closes with no action. -/
def ConfirmDialogState.handle (d : ConfirmDialogState) (a : Action) :
    ConfirmDialogState × Option Action :=
  match a with
  | .moveUp => ({ d with selected := !d.selected }, some .render)
  | .moveDown => ({ d with selected := !d.selected }, some .render)
  | .character c =>
    if c = 'y' then ({ d with selected := true }, some .render)
    else if c = 'n' then ({ d with selected := false }, some .render)
    else (d, none)
  | .enter => (d, some (if d.selected then resolveConfirm d.callback else .closeDialog))
  | .escape => (d, some .closeDialog)
  | _ => (d, none)

/-- The active-view selector, from `enum View` in `src/app.rs`. -/
inductive View where
  | sessionPicker
  | commandPalette
  | filePicker
  | worktreePicker
deriving DecidableEq, Repr

/-- The dialog overlay, from `enum Dialog` in `src/app.rs`. -/
inductive Dialog where
  | none
  | input (d : InputDialogState)
  | confirm (d : ConfirmDialogState)
deriving DecidableEq, Repr

/-- The `App` state owned by the control loop (`struct App` in `src/app.rs`);
the collaborator handles (`Tui`, `TmuxClient`) are represented by the dispatch
environment. -/
structure AppState where
  view : View
  dialog : Dialog
  running : Bool
  currentPath : ModelPath
  sessionPicker : SPState
  commandPalette : Option CPState
  filePicker : Option FPState
  worktreePicker : Option WPState
deriving DecidableEq, Repr

/-- A collaborator call emitted during a dispatch, recording the external
operations the router asks for (spec section 6). -/
inductive Call where
  | listSessions
  | createSession (name : String) (path : Option ModelPath)
  | switchSession (name : String)
  | killSession (name : String)
  | currentSession
  | popupCommand (cmd w h : String)
  | tuiExit
  | tuiEnter
  | nvimOpenFile (path : ModelPath)
  | gitCreateWorktree (branch : String)
  | gitDeleteWorktree (path : ModelPath)
  | gitListWorktrees
  | gitMergeToMain (path : ModelPath) (branch : String)
deriving DecidableEq, Repr

/-- Modelled from the spec: the VCS collaborator interface (spec section 6),
as the results its operations would return during one dispatch. -/
structure GitEnv where
  createWorktree : String → Except Err ModelPath
  deleteWorktree : ModelPath → Except Err Unit
  listWorktrees : Except Err (List GitWorktree)
  mergeToMain : ModelPath → String → Except Err Unit

/-- Modelled from the spec: the collaborator environment of one dispatch —
the session manager, terminal surface, editor integration and file system
(spec section 6), plus the optional VCS client (`GitClient::new(path).ok()`),
all as the results their synchronous calls would return. -/
structure Env where
  listSessions : Except Err (List TmuxSession)
  createSession : String → Option ModelPath → Except Err Unit
  switchSession : String → Except Err Unit
  killSession : String → Except Err Unit
  currentSession : Except Err String
  popupCommand : Except Err Unit
  tuiExit : Except Err Unit
  tuiEnter : Except Err Unit
  nvimOpenFile : ModelPath → Except Err Unit
  git : Option GitEnv
  isGitRepo : Bool
  isDir : ModelPath → Bool
  readDir : ModelPath → Option (List RawEntry)

/-- The outcome of one dispatch step: the new app state, the trace of
collaborator calls made, and whether the step propagated an error.  State
mutations performed before a failing call persist, as they do through
`&mut self` in the source. -/
abbrev DOut := AppState × List Call × Except Err Unit

/-- Embedding of `WorktreePicker::refresh` (`src/components/worktree_picker.rs`)
with its collaborator call: list the worktrees if a git client exists,
propagating a listing failure. -/
def WPState.refreshE (env : Env) (wp : WPState) : WPState × List Call × Except Err Unit :=
  match env.git with
  | Option.none => (wp, [], .ok ())
  | Option.some g =>
    match g.listWorktrees with
    | .error e => (wp, [.gitListWorktrees], .error e)
    | .ok wts => (wp.setItems wts, [.gitListWorktrees], .ok ())

/-- Embedding of `WorktreePicker::new`: construct with an empty list, then
`let _ = picker.refresh()` — the refresh error is discarded but its state
effect and collaborator call remain. -/
def WPState.new (env : Env) : WPState × List Call :=
  let out := WPState.refreshE env { fuzzy := FuzzyList.new }
  (out.1, out.2.1)

/-- The error plumbing of the view-delegation block of `App::handle_action`
(`src/app.rs` lines 336-354): the session picker's handler result is
propagated with `?`, while the other three views go through
`.and_then(|p| p.handle_action(&action).ok()).flatten()`, which maps an
error to no action. -/
def delegateResult (v : View) (r : Except Err (Option Action)) : Except Err (Option Action) :=
  match v with
  | .sessionPicker => r
  | _ => .ok r.toOption.join

/-- The session name `SwitchWorktree` derives from a worktree path: its last
segment (`path.file_name()`), defaulting to `"worktree"`. -/
def sessionNameOf (p : ModelPath) : String :=
  (p.getLast?).getD "worktree"

/-- Embedding of `App::execute_command` from `src/app.rs`, parametric in the
recursive dispatch used by the `GitStatus` arm. -/
def executeCommandWith (recur : AppState → Action → DOut) (env : Env) (s : AppState) :
    PaletteCommand → DOut
  | .openFile =>
    let s1 : AppState := { s with view := .filePicker }
    match s1.filePicker with
    | Option.none =>
      ({ s1 with filePicker := some (FPState.new env.isDir env.readDir s.currentPath) },
        [], .ok ())
    | Option.some _ => (s1, [], .ok ())
  | .newSession =>
    ({ s with dialog := .input (InputDialogState.new "New Session Name" .createSession) },
      [], .ok ())
  | .killSession =>
    match env.currentSession with
    | .error e => (s, [.currentSession], .error e)
    | .ok current =>
      ({ s with dialog := .confirm (ConfirmDialogState.new "Kill Session"
          ("Kill current session " ++ current ++ "?") (.killSession current)) },
        [.currentSession], .ok ())
  | .listWorktrees =>
    let s1 : AppState := { s with view := .worktreePicker }
    match s1.worktreePicker with
    | Option.none =>
      let built := WPState.new env
      ({ s1 with worktreePicker := some built.1 }, built.2, .ok ())
    | Option.some _ => (s1, [], .ok ())
  | .createWorktree =>
    ({ s with dialog := .input (InputDialogState.new "New Worktree Branch" .createWorktree) },
      [], .ok ())
  | .gitStatus => recur s .showGitDiff

/-- Embedding of the global-action match of `App::handle_action`
(`src/app.rs` lines 191-334), parametric in the recursive dispatch used by
the `CreateWorktree` and `ExecuteCommand` arms.  Returns `none` for actions
that fall through (`_ => {}` in the source) to the view delegation. -/
def handleGlobalWith (recur : AppState → Action → DOut) (env : Env) (s : AppState) :
    Action → Option DOut
  | .quit => some ({ s with running := false }, [], .ok ())
  | .closeDialog => some ({ s with dialog := .none }, [], .ok ())
  | .showInput title cb =>
    some ({ s with dialog := .input (InputDialogState.new title cb) }, [], .ok ())
  | .showConfirm title message cb =>
    some ({ s with dialog := .confirm (ConfirmDialogState.new title message cb) }, [], .ok ())
  | .switchSession name =>
    some (match env.tuiExit with
    | .error e => (s, [.tuiExit], .error e)
    | .ok _ =>
      match env.switchSession name with
      | .error e => (s, [.tuiExit, .switchSession name], .error e)
      | .ok _ => ({ s with running := false }, [.tuiExit, .switchSession name], .ok ()))
  | .createSession name path =>
    some (match env.createSession name path with
    | .error e => (s, [.createSession name path], .error e)
    | .ok _ =>
      match env.switchSession name with
      | .error e => (s, [.createSession name path, .switchSession name], .error e)
      | .ok _ =>
        ({ s with dialog := .none, running := false },
          [.createSession name path, .switchSession name], .ok ()))
  | .killSession name =>
    some (match env.killSession name with
    | .error e => (s, [.killSession name], .error e)
    | .ok _ =>
      match env.listSessions with
      | .error e => ({ s with dialog := .none }, [.killSession name, .listSessions], .error e)
      | .ok ss =>
        ({ s with dialog := .none, sessionPicker := s.sessionPicker.setItems ss },
          [.killSession name, .listSessions], .ok ()))
  | .openFile path =>
    some (match env.tuiExit with
    | .error e => (s, [.tuiExit], .error e)
    | .ok _ =>
      match env.nvimOpenFile path with
      | .error e => (s, [.tuiExit, .nvimOpenFile path], .error e)
      | .ok _ => ({ s with running := false }, [.tuiExit, .nvimOpenFile path], .ok ()))
  | .switchWorktree path =>
    some (
      let sessionName := sessionNameOf path
      match env.listSessions with
      | .error e => (s, [.listSessions], .error e)
      | .ok sessions =>
        let sessionExists := sessions.any (fun t => decide (t.name = sessionName))
        let createCalls : List Call :=
          if sessionExists then [] else [.createSession sessionName (some path)]
        let afterCreate : Except Err Unit :=
          if sessionExists then .ok () else env.createSession sessionName (some path)
        match afterCreate with
        | .error e => (s, .listSessions :: createCalls, .error e)
        | .ok _ =>
          match env.tuiExit with
          | .error e => (s, .listSessions :: createCalls ++ [.tuiExit], .error e)
          | .ok _ =>
            match env.switchSession sessionName with
            | .error e =>
              (s, .listSessions :: createCalls ++ [.tuiExit, .switchSession sessionName],
                .error e)
            | .ok _ =>
              ({ s with running := false },
                .listSessions :: createCalls ++ [.tuiExit, .switchSession sessionName],
                .ok ()))
  | .createWorktree branch =>
    some (match env.git with
    | Option.none => ({ s with dialog := .none }, [], .ok ())
    | Option.some g =>
      match g.createWorktree branch with
      | .error e => (s, [.gitCreateWorktree branch], .error e)
      | .ok worktreePath =>
        let s1 : AppState := { s with dialog := .none }
        let out := recur s1 (.switchWorktree worktreePath)
        (out.1, .gitCreateWorktree branch :: out.2.1, out.2.2))
  | .deleteWorktree path =>
    some (match env.git with
    | Option.none => ({ s with dialog := .none }, [], .ok ())
    | Option.some g =>
      match g.deleteWorktree path with
      | .error e => (s, [.gitDeleteWorktree path], .error e)
      | .ok _ =>
        match s.worktreePicker with
        | Option.none => ({ s with dialog := .none }, [.gitDeleteWorktree path], .ok ())
        | Option.some wp =>
          let refreshed := WPState.refreshE env wp
          match refreshed.2.2 with
          | .error e =>
            ({ s with worktreePicker := some refreshed.1 },
              .gitDeleteWorktree path :: refreshed.2.1, .error e)
          | .ok _ =>
            ({ s with worktreePicker := some refreshed.1, dialog := .none },
              .gitDeleteWorktree path :: refreshed.2.1, .ok ()))
  | .mergeWorktree path =>
    some (match env.git with
    | Option.none => ({ s with dialog := .none }, [], .ok ())
    | Option.some g =>
      match g.listWorktrees with
      | .error e => (s, [.gitListWorktrees], .error e)
      | .ok wts =>
        let mergeCalls : List Call :=
          match wts.find? (fun w => decide (w.path = path)) with
          | Option.some wt => [.gitMergeToMain path wt.branch]
          | Option.none => []
        let mergeResult : Except Err Unit :=
          match wts.find? (fun w => decide (w.path = path)) with
          | Option.some wt => g.mergeToMain path wt.branch
          | Option.none => .ok ()
        match mergeResult with
        | .error e => (s, .gitListWorktrees :: mergeCalls, .error e)
        | .ok _ =>
          match s.worktreePicker with
          | Option.none => ({ s with dialog := .none }, .gitListWorktrees :: mergeCalls, .ok ())
          | Option.some wp =>
            let refreshed := WPState.refreshE env wp
            match refreshed.2.2 with
            | .error e =>
              ({ s with worktreePicker := some refreshed.1 },
                .gitListWorktrees :: mergeCalls ++ refreshed.2.1, .error e)
            | .ok _ =>
              ({ s with worktreePicker := some refreshed.1, dialog := .none },
                .gitListWorktrees :: mergeCalls ++ refreshed.2.1, .ok ()))
  | .executeCommand cmd => some (executeCommandWith recur env s cmd)
  | .showSessionPicker =>
    some (
      let s1 : AppState := { s with view := .sessionPicker }
      match env.listSessions with
      | .error e => (s1, [.listSessions], .error e)
      | .ok ss =>
        ({ s1 with sessionPicker := s1.sessionPicker.setItems ss }, [.listSessions], .ok ()))
  | .showCommandPalette =>
    some (
      let s1 : AppState := { s with view := .commandPalette }
      match s1.commandPalette with
      | Option.none =>
        ({ s1 with commandPalette := some (CPState.new env.isGitRepo) }, [], .ok ())
      | Option.some _ => (s1, [], .ok ()))
  | .showFilePicker =>
    some (
      let s1 : AppState := { s with view := .filePicker }
      match s1.filePicker with
      | Option.none =>
        ({ s1 with filePicker := some (FPState.new env.isDir env.readDir s.currentPath) },
          [], .ok ())
      | Option.some _ => (s1, [], .ok ()))
  | .showWorktreePicker =>
    some (
      let s1 : AppState := { s with view := .worktreePicker }
      match s1.worktreePicker with
      | Option.none =>
        let built := WPState.new env
        ({ s1 with worktreePicker := some built.1 }, built.2, .ok ())
      | Option.some _ => (s1, [], .ok ()))
  | .showGitDiff =>
    some (match env.tuiExit with
    | .error e => (s, [.tuiExit], .error e)
    | .ok _ =>
      match env.popupCommand with
      | .error e =>
        (s, [.tuiExit, .popupCommand "git diff HEAD | delta" "90%" "90%"], .error e)
      | .ok _ =>
        match env.tuiEnter with
        | .error e =>
          (s, [.tuiExit, .popupCommand "git diff HEAD | delta" "90%" "90%", .tuiEnter],
            .error e)
        | .ok _ =>
          (s, [.tuiExit, .popupCommand "git diff HEAD | delta" "90%" "90%", .tuiEnter],
            .ok ()))
  | .render => some (s, [], .ok ())
  | _ => Option.none

/-- Embedding of `App::handle_action` from `src/app.rs`, with a fuel bound on
the recursive re-dispatch of follow-up actions.  The order is exactly the
source's: an active dialog intercepts every action first; otherwise the
global match runs; otherwise the action is delegated to the active view and a
follow-up action is re-dispatched.  Every reachable re-dispatch chain of the
source has depth at most three, so the fixed fuel of `dispatch` below never
runs out; on exhaustion the model leaves the state unchanged. -/
def dispatchFuel (env : Env) : Nat → AppState → Action → DOut
  | 0, s, _ => (s, [], .ok ())
  | fuel + 1, s, a =>
    match s.dialog with
    | .input d =>
      let stepped := d.handle a
      let s1 : AppState := { s with dialog := .input stepped.1 }
      match stepped.2 with
      | Option.some resultAction => dispatchFuel env fuel s1 resultAction
      | Option.none => (s1, [], .ok ())
    | .confirm d =>
      let stepped := d.handle a
      let s1 : AppState := { s with dialog := .confirm stepped.1 }
      match stepped.2 with
      | Option.some resultAction => dispatchFuel env fuel s1 resultAction
      | Option.none => (s1, [], .ok ())
    | .none =>
      match handleGlobalWith (dispatchFuel env fuel) env s a with
      | Option.some out => out
      | Option.none =>
        match s.view with
        | .sessionPicker =>
          let stepped := s.sessionPicker.handle a
          let s1 : AppState := { s with sessionPicker := stepped.1 }
          match delegateResult .sessionPicker stepped.2 with
          | .error e => (s1, [], .error e)
          | .ok (Option.some resultAction) => dispatchFuel env fuel s1 resultAction
          | .ok Option.none => (s1, [], .ok ())
        | .commandPalette =>
          match s.commandPalette with
          | Option.none => (s, [], .ok ())
          | Option.some cp =>
            let stepped := cp.handle a
            let s1 : AppState := { s with commandPalette := some stepped.1 }
            match delegateResult .commandPalette stepped.2 with
            | .error e => (s1, [], .error e)
            | .ok (Option.some resultAction) => dispatchFuel env fuel s1 resultAction
            | .ok Option.none => (s1, [], .ok ())
        | .filePicker =>
          match s.filePicker with
          | Option.none => (s, [], .ok ())
          | Option.some fp =>
            let stepped := FPState.handle env.readDir fp a
            let s1 : AppState := { s with filePicker := some stepped.1 }
            match delegateResult .filePicker stepped.2 with
            | .error e => (s1, [], .error e)
            | .ok (Option.some resultAction) => dispatchFuel env fuel s1 resultAction
            | .ok Option.none => (s1, [], .ok ())
        | .worktreePicker =>
          match s.worktreePicker with
          | Option.none => (s, [], .ok ())
          | Option.some wp =>
            let stepped := wp.handle a
            let s1 : AppState := { s with worktreePicker := some stepped.1 }
            match delegateResult .worktreePicker stepped.2 with
            | .error e => (s1, [], .error e)
            | .ok (Option.some resultAction) => dispatchFuel env fuel s1 resultAction
            | .ok Option.none => (s1, [], .ok ())

/-- One full dispatch of `App::handle_action` (fuel 8 strictly dominates the
source's maximal re-dispatch depth of three). -/
def dispatch (env : Env) (s : AppState) (a : Action) : DOut :=
  dispatchFuel env 8 s a

/-- A concrete all-succeeding VCS environment used by witnesses. -/
def okGit : GitEnv :=
  { createWorktree := fun _ => .ok ["repo", "wt"]
    deleteWorktree := fun _ => .ok ()
    listWorktrees := .ok []
    mergeToMain := fun _ _ => .ok () }

/-- A concrete all-succeeding collaborator environment used by witnesses. -/
def okEnv : Env :=
  { listSessions := .ok [{ name := "dev" }]
    createSession := fun _ _ => .ok ()
    switchSession := fun _ => .ok ()
    killSession := fun _ => .ok ()
    currentSession := .ok "dev"
    popupCommand := .ok ()
    tuiExit := .ok ()
    tuiEnter := .ok ()
    nvimOpenFile := fun _ => .ok ()
    git := some okGit
    isGitRepo := true
    isDir := fun _ => true
    readDir := fun _ => some [] }

/-- A concrete session picker holding one session, used by witnesses. -/
def baseSessionPicker : SPState :=
  { fuzzy := { items := [{ name := "dev" }], query := "", cursor := some 0 } }

/-- A concrete app state on the session picker with no dialog, used by
witnesses. -/
def baseState : AppState :=
  { view := .sessionPicker
    dialog := .none
    running := true
    currentPath := ["home", "proj"]
    sessionPicker := baseSessionPicker
    commandPalette := Option.none
    filePicker := Option.none
    worktreePicker := Option.none }

/-- A concrete app state with an open confirm dialog, used by witnesses. -/
def confirmState : AppState :=
  { baseState with
    dialog := .confirm (ConfirmDialogState.new "Kill Session"
      "Kill current session dev?" (.killSession "dev")) }

/-- The empty query list is a subsequence of anything. -/
theorem subseqCheck_nil (l : List Char) : subseqCheck [] l = true := by
  cases l <;> rfl

/-- The empty query fuzzy-matches every search text. -/
theorem ciFuzzyMatch_empty (s : String) : ciFuzzyMatch "" s = true := by
  unfold ciFuzzyMatch
  show subseqCheck [] (s.data.map Char.toLower) = true
  exact subseqCheck_nil _

/-- C4: an item is retained by the filter iff the query is a case-insensitive
subsequence of its search text; the empty query retains everything; retained
items keep their original insertion order (the filtered view is a sublist of
the item list). -/
theorem claim_C4_fuzzy_filter_correct :
    ∀ (T : Type) (sf : T → String) (items : List T) (q : String),
      List.Sublist (filteredList sf items q) items
      ∧ (∀ t, t ∈ filteredList sf items q ↔ t ∈ items ∧ CISubseq q (sf t))
      ∧ (q = "" → filteredList sf items q = items) := by
  intro T sf items q
  refine ⟨List.filter_sublist items, ?_, ?_⟩
  · intro t
    rw [filteredList, List.mem_filter]
    exact and_congr_right (fun _ => ciFuzzyMatch_iff q (sf t))
  · intro hq
    subst hq
    apply List.filter_eq_self.mpr
    intro t _
    exact ciFuzzyMatch_empty (sf t)

/-- Witness for C4 at the spec's own scenario data with an empty query. -/
theorem claim_C4_witness :
    filteredList (fun s : String => s) ["Apple", "Banana", "Cherry"] "" =
      ["Apple", "Banana", "Cherry"] :=
  (claim_C4_fuzzy_filter_correct String (fun s => s) ["Apple", "Banana", "Cherry"] "").2.2 rfl

/-- A non-empty filtered view forces the freshly recomputed cursor to 0. -/
theorem resetCursor_of_ne {T : Type} (sf : T → String) (its : List T) (q : String)
    (h : filteredList sf its q ≠ []) : FuzzyList.resetCursor sf its q = some 0 := by
  unfold FuzzyList.resetCursor
  rw [if_neg (by simpa [List.isEmpty_iff] using h)]

/-- C5: along any operation sequence from a fresh fuzzy list the cursor is
`none` exactly when the filtered view is empty and otherwise indexes into it;
and every query edit (`push_char`, `pop_char`, `clear_query`) resets the
cursor to 0 whenever the resulting filtered view is non-empty. -/
theorem claim_C5_cursor_invariant :
    (∀ (T : Type) (sf : T → String) (ops : List (FLOp T)),
      CursorInv sf (applyFLOps sf ops FuzzyList.new))
    ∧ (∀ (T : Type) (sf : T → String) (fl : FuzzyList T) (c : Char),
        (((fl.pushChar sf c).filteredOf sf ≠ []) → (fl.pushChar sf c).cursor = some 0)
        ∧ (((fl.popChar sf).filteredOf sf ≠ []) → (fl.popChar sf).cursor = some 0)
        ∧ (((fl.clearQuery sf).filteredOf sf ≠ []) → (fl.clearQuery sf).cursor = some 0)) := by
  constructor
  · intro T sf ops
    exact cursorInv_applyFLOps sf ops _ (cursorInv_new sf)
  · intro T sf fl c
    exact ⟨fun h => resetCursor_of_ne sf fl.items _ h,
      fun h => resetCursor_of_ne sf fl.items _ h,
      fun h => resetCursor_of_ne sf fl.items _ h⟩

/-- Witness for C5: pushing a matching character on a one-item list leaves
the cursor at 0. -/
theorem claim_C5_witness :
    ((FuzzyList.setItems (fun s : String => s) FuzzyList.new ["alpha"]).pushChar
      (fun s : String => s) 'a').cursor = some 0 :=
  ((claim_C5_cursor_invariant.2 String (fun s => s)
    (FuzzyList.setItems (fun s : String => s) FuzzyList.new ["alpha"]) 'a').1 (by decide))

/-- C7 (evaluation at the failing input and around it): an unmodified
Down/Up arrow key maps to no action at all, because the source's match guard
`if key.modifiers.contains(CONTROL)` covers the whole or-pattern
`Up | Char('k')` (resp. `Down | Char('j')`); only the Ctrl-modified arrows
and Ctrl+j/k navigate, while plain j/k are plain characters. -/
theorem claim_C7_key_mapping_evaluation :
    keyToAction { code := .down, ctrl := false } = Option.none
    ∧ keyToAction { code := .up, ctrl := false } = Option.none
    ∧ keyToAction { code := .down, ctrl := true } = some .moveDown
    ∧ keyToAction { code := .char 'j', ctrl := true } = some .moveDown
    ∧ keyToAction { code := .up, ctrl := true } = some .moveUp
    ∧ keyToAction { code := .char 'k', ctrl := true } = some .moveUp
    ∧ keyToAction { code := .char 'j', ctrl := false } = some (.character 'j')
    ∧ keyToAction { code := .char 'k', ctrl := false } = some (.character 'k') := by
  decide

/-- C10: a `q` key press maps to `Quit` (with or without Ctrl) and is never
turned into the character `q`, so `q` can never reach a filter query or an
input dialog buffer through the key-mapping path. -/
theorem claim_C10_q_always_quits :
    (keyToAction { code := .char 'q', ctrl := false } = some .quit)
    ∧ (∀ b : Bool, keyToAction { code := .char 'q', ctrl := b } ≠ some (.character 'q')) := by
  decide

/-- C3 (counterexample): an error surfaced by the command palette's
`handle_action` is mapped to `Ok(None)` by the router's
`.and_then(|p| p.handle_action(&action).ok()).flatten()` plumbing — it is
swallowed, not propagated. -/
theorem claim_C3_counterexample :
    delegateResult .commandPalette (.error { msg := "tmux unreachable" }) = .ok Option.none
    ∧ delegateResult .commandPalette (.error { msg := "tmux unreachable" })
        ≠ (.error { msg := "tmux unreachable" } : Except Err (Option Action)) :=
  ⟨rfl, fun h => Except.noConfusion h⟩

/-- C3 (amended): only the session picker's handler errors propagate out of
the view delegation; errors from the command palette, file picker and
worktree picker handlers are mapped to no action, and successful results pass
through unchanged for every view. -/
theorem claim_C3_amended_delegation :
    (∀ r : Except Err (Option Action), delegateResult .sessionPicker r = r)
    ∧ (∀ e : Err,
        delegateResult .commandPalette (.error e) = .ok Option.none
        ∧ delegateResult .filePicker (.error e) = .ok Option.none
        ∧ delegateResult .worktreePicker (.error e) = .ok Option.none)
    ∧ (∀ (v : View) (oa : Option Action), delegateResult v (.ok oa) = .ok oa) := by
  refine ⟨fun r => rfl, fun e => ⟨rfl, rfl, rfl⟩, fun v oa => ?_⟩
  cases v <;> rfl

/-- C9: with an empty filter query and the main worktree selected, the
character `d` is rejected by the worktree picker — no follow-up action (in
particular neither `ShowConfirm` nor `DeleteWorktree`) is produced and the
picker state is unchanged. -/
theorem claim_C9_main_worktree_delete_rejected :
    ∀ (wp : WPState) (wt : GitWorktree),
      wp.fuzzy.query = "" →
      wp.fuzzy.selected GitWorktree.searchText = some wt →
      wt.is_main = true →
      wp.handle (.character 'd') = (wp, .ok Option.none) := by
  intro wp wt hq hsel hmain
  simp [WPState.handle, hq, hsel, hmain]

/-- A concrete worktree picker whose single entry is the main worktree. -/
def mainWorktreePicker : WPState :=
  { fuzzy :=
    { items := [{ path := ["repo"], branch := "main", is_main := true, has_changes := false }]
      query := ""
      cursor := some 0 } }

/-- Witness for C9 at the spec's scenario: one `{is_main: true}` entry,
`d` pressed with an empty query. -/
theorem claim_C9_witness :
    mainWorktreePicker.handle (.character 'd') = (mainWorktreePicker, .ok Option.none) :=
  claim_C9_main_worktree_delete_rejected mainWorktreePicker
    { path := ["repo"], branch := "main", is_main := true, has_changes := false }
    rfl (by decide) rfl

/-- While a dialog is active, any amount of fuel routes every action (and
every re-dispatched follow-up) to the dialog alone: the view-related state,
the run flag and the call trace are untouched and the dialog stays active. -/
theorem dispatchFuel_dialog_trap (fuel : Nat) :
    ∀ (env : Env) (s : AppState) (a : Action),
      s.dialog ≠ Dialog.none →
      (dispatchFuel env fuel s a).1.view = s.view
      ∧ (dispatchFuel env fuel s a).1.sessionPicker = s.sessionPicker
      ∧ (dispatchFuel env fuel s a).1.commandPalette = s.commandPalette
      ∧ (dispatchFuel env fuel s a).1.filePicker = s.filePicker
      ∧ (dispatchFuel env fuel s a).1.worktreePicker = s.worktreePicker
      ∧ (dispatchFuel env fuel s a).1.running = s.running
      ∧ (dispatchFuel env fuel s a).1.currentPath = s.currentPath
      ∧ (dispatchFuel env fuel s a).2.1 = []
      ∧ (dispatchFuel env fuel s a).1.dialog ≠ Dialog.none := by
  induction fuel with
  | zero =>
    intro env s a h
    exact ⟨rfl, rfl, rfl, rfl, rfl, rfl, rfl, rfl, h⟩
  | succ n ih =>
    intro env s a h
    obtain ⟨v, dlg, run, cpath, sp, cp, fp, wp⟩ := s
    cases dlg with
    | none => exact absurd rfl h
    | input d =>
      cases hstep : (d.handle a).2 with
      | none =>
        simp [dispatchFuel, hstep]
      | some ra =>
        simp only [dispatchFuel, hstep]
        exact ih env
          { view := v, dialog := .input (d.handle a).1, running := run, currentPath := cpath,
            sessionPicker := sp, commandPalette := cp, filePicker := fp, worktreePicker := wp }
          ra (fun hc => Dialog.noConfusion hc)
    | confirm d =>
      cases hstep : (d.handle a).2 with
      | none =>
        simp [dispatchFuel, hstep]
      | some ra =>
        simp only [dispatchFuel, hstep]
        exact ih env
          { view := v, dialog := .confirm (d.handle a).1, running := run, currentPath := cpath,
            sessionPicker := sp, commandPalette := cp, filePicker := fp, worktreePicker := wp }
          ra (fun hc => Dialog.noConfusion hc)

/-- C1: while a dialog (input or confirm) is active, a dispatched action is
routed exclusively to the dialog — no global handler runs (no collaborator
call is emitted, the run flag is untouched) and the active view never
receives the action (the view selector and all four picker states are
unchanged); only the dialog's own state may change. -/
theorem claim_C1_dialog_precedence :
    ∀ (env : Env) (s : AppState) (a : Action),
      s.dialog ≠ Dialog.none →
      (dispatch env s a).1.view = s.view
      ∧ (dispatch env s a).1.sessionPicker = s.sessionPicker
      ∧ (dispatch env s a).1.commandPalette = s.commandPalette
      ∧ (dispatch env s a).1.filePicker = s.filePicker
      ∧ (dispatch env s a).1.worktreePicker = s.worktreePicker
      ∧ (dispatch env s a).1.running = s.running
      ∧ (dispatch env s a).2.1 = [] := by
  intro env s a h
  obtain ⟨h1, h2, h3, h4, h5, h6, _, h8, _⟩ := dispatchFuel_dialog_trap 8 env s a h
  exact ⟨h1, h2, h3, h4, h5, h6, h8⟩

/-- Witness for C1: a raw `MoveUp` dispatched while a confirm dialog is open
leaves the session picker (and all other view state) untouched and makes no
collaborator call. -/
theorem claim_C1_witness :
    confirmState.dialog ≠ Dialog.none
    ∧ ((dispatch okEnv confirmState .moveUp).1.view = confirmState.view
      ∧ (dispatch okEnv confirmState .moveUp).1.sessionPicker = confirmState.sessionPicker
      ∧ (dispatch okEnv confirmState .moveUp).1.commandPalette = confirmState.commandPalette
      ∧ (dispatch okEnv confirmState .moveUp).1.filePicker = confirmState.filePicker
      ∧ (dispatch okEnv confirmState .moveUp).1.worktreePicker = confirmState.worktreePicker
      ∧ (dispatch okEnv confirmState .moveUp).1.running = confirmState.running
      ∧ (dispatch okEnv confirmState .moveUp).2.1 = []) :=
  ⟨by decide, claim_C1_dialog_precedence okEnv confirmState .moveUp (by decide)⟩

/-- For each of the five state-mutating global actions, the proposition that
its designated mutating collaborator call fails in the given environment
(`create_session`, `kill_session`, `create_worktree`, `delete_worktree`,
`merge_to_main` respectively); `False` for every other action. -/
def mutCallFails (env : Env) : Action → Prop
  | .createSession name path => ∃ e, env.createSession name path = .error e
  | .killSession name => ∃ e, env.killSession name = .error e
  | .createWorktree branch =>
    ∃ g e, env.git = some g ∧ g.createWorktree branch = .error e
  | .deleteWorktree path =>
    ∃ g e, env.git = some g ∧ g.deleteWorktree path = .error e
  | .mergeWorktree path =>
    ∃ g wts wt e, env.git = some g ∧ g.listWorktrees = .ok wts
      ∧ wts.find? (fun w => decide (w.path = path)) = some wt
      ∧ g.mergeToMain path wt.branch = .error e
  | _ => False

/-- C2: whenever the mutating collaborator call of a state-mutating global
action (`CreateSession`, `KillSession`, `CreateWorktree`, `DeleteWorktree`,
`MergeWorktree`) fails, the global handler propagates the error and leaves
the dialog and the active view exactly as they were — no partial transition
(clearing the dialog, switching views) is applied. -/
theorem claim_C2_failed_mutation_preserves_state :
    ∀ (recur : AppState → Action → DOut) (env : Env) (s : AppState) (a : Action),
      mutCallFails env a →
      ∃ out : DOut, handleGlobalWith recur env s a = some out
        ∧ out.1.dialog = s.dialog ∧ out.1.view = s.view
        ∧ ∃ e, out.2.2 = .error e := by
  intro recur env s a h
  cases a with
  | createSession name path =>
    obtain ⟨e, he⟩ := h
    exact ⟨(s, [.createSession name path], .error e),
      by simp [handleGlobalWith, he], rfl, rfl, e, rfl⟩
  | killSession name =>
    obtain ⟨e, he⟩ := h
    exact ⟨(s, [.killSession name], .error e),
      by simp [handleGlobalWith, he], rfl, rfl, e, rfl⟩
  | createWorktree branch =>
    obtain ⟨g, e, hg, he⟩ := h
    exact ⟨(s, [.gitCreateWorktree branch], .error e),
      by simp [handleGlobalWith, hg, he], rfl, rfl, e, rfl⟩
  | deleteWorktree path =>
    obtain ⟨g, e, hg, he⟩ := h
    exact ⟨(s, [.gitDeleteWorktree path], .error e),
      by simp [handleGlobalWith, hg, he], rfl, rfl, e, rfl⟩
  | mergeWorktree path =>
    obtain ⟨g, wts, wt, e, hg, hl, hf, hm⟩ := h
    exact ⟨(s, [.gitListWorktrees, .gitMergeToMain path wt.branch], .error e),
      by simp [handleGlobalWith, hg, hl, hf, hm], rfl, rfl, e, rfl⟩
  | quit => exact h.elim
  | goBack => exact h.elim
  | render => exact h.elim
  | moveUp => exact h.elim
  | moveDown => exact h.elim
  | pageUp => exact h.elim
  | pageDown => exact h.elim
  | character c => exact h.elim
  | backspace => exact h.elim
  | enter => exact h.elim
  | escape => exact h.elim
  | switchSession name => exact h.elim
  | openFile path => exact h.elim
  | openBuffer socket bufnr => exact h.elim
  | switchWorktree path => exact h.elim
  | executeCommand cmd => exact h.elim
  | showInput title cb => exact h.elim
  | showConfirm title message cb => exact h.elim
  | closeDialog => exact h.elim
  | showSessionPicker => exact h.elim
  | showCommandPalette => exact h.elim
  | showFilePicker => exact h.elim
  | showWorktreePicker => exact h.elim
  | showBufferPicker => exact h.elim
  | showGitDiff => exact h.elim

/-- Witness for C2: a failing `create_session` call dispatched while an input
dialog is open leaves the dialog and view untouched and surfaces the error. -/
theorem claim_C2_witness :
    mutCallFails
      { okEnv with createSession := fun _ _ => .error { msg := "duplicate session" } }
      (.createSession "proj" Option.none)
    ∧ ∃ out : DOut,
        handleGlobalWith (fun s _ => (s, [], .ok ()))
          { okEnv with createSession := fun _ _ => .error { msg := "duplicate session" } }
          confirmState (.createSession "proj" Option.none) = some out
        ∧ out.1.dialog = confirmState.dialog ∧ out.1.view = confirmState.view
        ∧ ∃ e, out.2.2 = .error e :=
  ⟨⟨{ msg := "duplicate session" }, rfl⟩,
    claim_C2_failed_mutation_preserves_state (fun s _ => (s, [], .ok ()))
      { okEnv with createSession := fun _ _ => .error { msg := "duplicate session" } }
      confirmState (.createSession "proj" Option.none)
      ⟨{ msg := "duplicate session" }, rfl⟩⟩

/-- C6: `SwitchWorktree(p)` derives the session name from `p`'s last segment,
queries the session list, creates a session (at `p`) exactly when no session
of that name exists, then leaves the surface, switches to the session and
stops the run loop — in particular, when a same-named session already exists
no `create_session` call is made, only `switch_session`. -/
theorem claim_C6_switch_worktree_protocol :
    ∀ (recur : AppState → Action → DOut) (env : Env) (s : AppState) (p : ModelPath)
      (ss : List TmuxSession),
      env.listSessions = .ok ss →
      env.tuiExit = .ok () →
      env.createSession (sessionNameOf p) (some p) = .ok () →
      env.switchSession (sessionNameOf p) = .ok () →
      handleGlobalWith recur env s (.switchWorktree p) = some
        ({ s with running := false },
          .listSessions ::
            (if ss.any (fun t => decide (t.name = sessionNameOf p)) then []
              else [.createSession (sessionNameOf p) (some p)])
            ++ [.tuiExit, .switchSession (sessionNameOf p)],
          .ok ())
      ∧ sessionNameOf p = (p.getLast?).getD "worktree" := by
  intro recur env s p ss hl hexit hcreate hswitch
  refine ⟨?_, rfl⟩
  by_cases hex : ss.any (fun t => decide (t.name = sessionNameOf p))
  · simp [handleGlobalWith, hl, hexit, hswitch, hex]
  · simp [handleGlobalWith, hl, hexit, hcreate, hswitch, hex]

/-- Witness for C6: switching to the worktree at `["repo", "dev"]` while a
session `dev` already exists lists sessions, skips `create_session`, exits
the surface and switches. -/
theorem claim_C6_witness :
    handleGlobalWith (fun s _ => (s, [], .ok ())) okEnv baseState
        (.switchWorktree ["repo", "dev"]) = some
      ({ baseState with running := false },
        .listSessions ::
          (if [({ name := "dev" } : TmuxSession)].any
              (fun t => decide (t.name = sessionNameOf ["repo", "dev"])) then []
            else [.createSession (sessionNameOf ["repo", "dev"]) (some ["repo", "dev"])])
          ++ [.tuiExit, .switchSession (sessionNameOf ["repo", "dev"])],
        .ok ()) :=
  (claim_C6_switch_worktree_protocol (fun s _ => (s, [], .ok ())) okEnv baseState
    ["repo", "dev"] [{ name := "dev" }] rfl rfl rfl rfl).1

/-- The filter query of the currently active picker, or `none` when the
active view's component has not been constructed. -/
def activeQuery (s : AppState) : Option String :=
  match s.view with
  | .sessionPicker => some s.sessionPicker.fuzzy.query
  | .commandPalette => s.commandPalette.map (fun cp => cp.fuzzy.query)
  | .filePicker => s.filePicker.map (fun fp => fp.fuzzy.query)
  | .worktreePicker => s.worktreePicker.map (fun wp => wp.fuzzy.query)

/-- C8: with no dialog open and a non-empty filter query in the active picker
(any of the four views), dispatching `Escape` only clears that query: the
active view and the (absent) dialog are unchanged — nothing is abandoned —
the run flag is untouched and no collaborator call is made; so an `Escape`
can only abandon the current modal/view when the query is already empty. -/
theorem dispatch_eq_fuel (env : Env) (s : AppState) (a : Action) :
    dispatch env s a = dispatchFuel env (6 + 1 + 1) s a := rfl

/-- `Escape` matches no global-action arm: it falls through to the view. -/
theorem handleGlobalWith_escape (r : AppState → Action → DOut) (env : Env) (s : AppState) :
    handleGlobalWith r env s .escape = Option.none := rfl

/-- Dispatching `Render` with no dialog open is a no-op. -/
theorem dispatchFuel_render (env : Env) (n : Nat) (s : AppState)
    (hd : s.dialog = Dialog.none) : dispatchFuel env n s .render = (s, [], .ok ()) := by
  cases n with
  | zero => rfl
  | succ m =>
    obtain ⟨v, dlg, run, cpath, sp, cp, fp, wp⟩ := s
    cases dlg with
    | none => rfl
    | input d => exact absurd hd (by simp)
    | confirm d => exact absurd hd (by simp)

theorem claim_C8_escape_context_sensitive :
    ∀ (env : Env) (s : AppState) (q : String),
      s.dialog = Dialog.none →
      activeQuery s = some q →
      q ≠ "" →
      (dispatch env s .escape).1.view = s.view
      ∧ (dispatch env s .escape).1.dialog = Dialog.none
      ∧ (dispatch env s .escape).1.running = s.running
      ∧ activeQuery (dispatch env s .escape).1 = some ""
      ∧ (dispatch env s .escape).2.1 = []
      ∧ (dispatch env s .escape).2.2 = .ok () := by
  intro env s q hd haq hqne
  rw [dispatch_eq_fuel]
  obtain ⟨v, dlg, run, cpath, sp, cp, fp, wp⟩ := s
  cases dlg with
  | input d => exact absurd hd (by simp)
  | confirm d => exact absurd hd (by simp)
  | none =>
    cases v with
    | sessionPicker =>
      simp only [activeQuery] at haq
      have hq' : sp.fuzzy.query = q := by simpa using haq
      have hne : sp.fuzzy.query ≠ "" := by rw [hq']; exact hqne
      have hh : sp.handle .escape =
          ({ fuzzy := sp.fuzzy.clearQuery TmuxSession.searchText }, .ok (some .render)) := by
        simp only [SPState.handle]
        rw [if_pos hne]
      have hstep :
          dispatchFuel env (6 + 1 + 1)
              ⟨.sessionPicker, Dialog.none, run, cpath, sp, cp, fp, wp⟩ .escape
            = dispatchFuel env (6 + 1)
              ⟨.sessionPicker, Dialog.none, run, cpath,
                { fuzzy := sp.fuzzy.clearQuery TmuxSession.searchText }, cp, fp, wp⟩ .render := by
        show (match delegateResult .sessionPicker (sp.handle .escape).2 with
          | .error e =>
            ((⟨.sessionPicker, Dialog.none, run, cpath, (sp.handle .escape).1, cp, fp, wp⟩ :
              AppState), ([] : List Call), Except.error e)
          | .ok (Option.some ra) =>
            dispatchFuel env (6 + 1)
              ⟨.sessionPicker, Dialog.none, run, cpath, (sp.handle .escape).1, cp, fp, wp⟩ ra
          | .ok Option.none =>
            ((⟨.sessionPicker, Dialog.none, run, cpath, (sp.handle .escape).1, cp, fp, wp⟩ :
              AppState), ([] : List Call), Except.ok ())) = _
        rw [hh]
        rfl
      rw [hstep, dispatchFuel_render env (6 + 1) _ rfl]
      exact ⟨rfl, rfl, rfl, rfl, rfl, rfl⟩
    | commandPalette =>
      simp only [activeQuery] at haq
      obtain ⟨cpv, hcp, hq'⟩ := Option.map_eq_some'.mp haq
      subst hcp
      have hne : cpv.fuzzy.query ≠ "" := by rw [hq']; exact hqne
      have hh : cpv.handle .escape =
          ({ cpv with fuzzy := cpv.fuzzy.clearQuery PaletteCommand.searchText },
            .ok (some .render)) := by
        simp only [CPState.handle]
        rw [if_pos hne]
      have hstep :
          dispatchFuel env (6 + 1 + 1)
              ⟨.commandPalette, Dialog.none, run, cpath, sp, some cpv, fp, wp⟩ .escape
            = dispatchFuel env (6 + 1)
              ⟨.commandPalette, Dialog.none, run, cpath, sp,
                some { cpv with fuzzy := cpv.fuzzy.clearQuery PaletteCommand.searchText },
                fp, wp⟩ .render := by
        show (match delegateResult .commandPalette (cpv.handle .escape).2 with
          | .error e =>
            ((⟨.commandPalette, Dialog.none, run, cpath, sp, some (cpv.handle .escape).1,
              fp, wp⟩ : AppState), ([] : List Call), Except.error e)
          | .ok (Option.some ra) =>
            dispatchFuel env (6 + 1)
              ⟨.commandPalette, Dialog.none, run, cpath, sp, some (cpv.handle .escape).1,
                fp, wp⟩ ra
          | .ok Option.none =>
            ((⟨.commandPalette, Dialog.none, run, cpath, sp, some (cpv.handle .escape).1,
              fp, wp⟩ : AppState), ([] : List Call), Except.ok ())) = _
        rw [hh]
        rfl
      rw [hstep, dispatchFuel_render env (6 + 1) _ rfl]
      exact ⟨rfl, rfl, rfl, rfl, rfl, rfl⟩
    | filePicker =>
      simp only [activeQuery] at haq
      obtain ⟨fpv, hfp, hq'⟩ := Option.map_eq_some'.mp haq
      subst hfp
      have hne : fpv.fuzzy.query ≠ "" := by rw [hq']; exact hqne
      have hh : FPState.handle env.readDir fpv .escape =
          ({ fpv with fuzzy := fpv.fuzzy.clearQuery FileEntry.searchText },
            .ok (some .render)) := by
        simp only [FPState.handle]
        rw [if_pos hne]
      have hstep :
          dispatchFuel env (6 + 1 + 1)
              ⟨.filePicker, Dialog.none, run, cpath, sp, cp, some fpv, wp⟩ .escape
            = dispatchFuel env (6 + 1)
              ⟨.filePicker, Dialog.none, run, cpath, sp, cp,
                some { fpv with fuzzy := fpv.fuzzy.clearQuery FileEntry.searchText },
                wp⟩ .render := by
        show (match delegateResult .filePicker (FPState.handle env.readDir fpv .escape).2 with
          | .error e =>
            ((⟨.filePicker, Dialog.none, run, cpath, sp, cp,
              some (FPState.handle env.readDir fpv .escape).1, wp⟩ : AppState),
              ([] : List Call), Except.error e)
          | .ok (Option.some ra) =>
            dispatchFuel env (6 + 1)
              ⟨.filePicker, Dialog.none, run, cpath, sp, cp,
                some (FPState.handle env.readDir fpv .escape).1, wp⟩ ra
          | .ok Option.none =>
            ((⟨.filePicker, Dialog.none, run, cpath, sp, cp,
              some (FPState.handle env.readDir fpv .escape).1, wp⟩ : AppState),
              ([] : List Call), Except.ok ())) = _
        rw [hh]
        rfl
      rw [hstep, dispatchFuel_render env (6 + 1) _ rfl]
      exact ⟨rfl, rfl, rfl, rfl, rfl, rfl⟩
    | worktreePicker =>
      simp only [activeQuery] at haq
      obtain ⟨wpv, hwp, hq'⟩ := Option.map_eq_some'.mp haq
      subst hwp
      have hne : wpv.fuzzy.query ≠ "" := by rw [hq']; exact hqne
      have hh : wpv.handle .escape =
          ({ fuzzy := wpv.fuzzy.clearQuery GitWorktree.searchText }, .ok (some .render)) := by
        simp only [WPState.handle]
        rw [if_pos hne]
      have hstep :
          dispatchFuel env (6 + 1 + 1)
              ⟨.worktreePicker, Dialog.none, run, cpath, sp, cp, fp, some wpv⟩ .escape
            = dispatchFuel env (6 + 1)
              ⟨.worktreePicker, Dialog.none, run, cpath, sp, cp, fp,
                some { fuzzy := wpv.fuzzy.clearQuery GitWorktree.searchText }⟩ .render := by
        show (match delegateResult .worktreePicker (wpv.handle .escape).2 with
          | .error e =>
            ((⟨.worktreePicker, Dialog.none, run, cpath, sp, cp, fp,
              some (wpv.handle .escape).1⟩ : AppState), ([] : List Call), Except.error e)
          | .ok (Option.some ra) =>
            dispatchFuel env (6 + 1)
              ⟨.worktreePicker, Dialog.none, run, cpath, sp, cp, fp,
                some (wpv.handle .escape).1⟩ ra
          | .ok Option.none =>
            ((⟨.worktreePicker, Dialog.none, run, cpath, sp, cp, fp,
              some (wpv.handle .escape).1⟩ : AppState), ([] : List Call), Except.ok ())) = _
        rw [hh]
        rfl
      rw [hstep, dispatchFuel_render env (6 + 1) _ rfl]
      exact ⟨rfl, rfl, rfl, rfl, rfl, rfl⟩

/-- A concrete app state whose session picker has the in-progress query `d`,
used by witnesses. -/
def queryState : AppState :=
  { baseState with
    sessionPicker := { fuzzy := { items := [{ name := "dev" }], query := "d", cursor := some 0 } } }

/-- Witness for C8: `Escape` on a session picker filtering by `d` clears the
query and abandons nothing. -/
theorem claim_C8_witness :
    queryState.dialog = Dialog.none
    ∧ activeQuery queryState = some "d"
    ∧ ((dispatch okEnv queryState .escape).1.view = queryState.view
      ∧ (dispatch okEnv queryState .escape).1.dialog = Dialog.none
      ∧ (dispatch okEnv queryState .escape).1.running = queryState.running
      ∧ activeQuery (dispatch okEnv queryState .escape).1 = some ""
      ∧ (dispatch okEnv queryState .escape).2.1 = []
      ∧ (dispatch okEnv queryState .escape).2.2 = .ok ()) :=
  ⟨rfl, rfl,
    claim_C8_escape_context_sensitive okEnv queryState "d" rfl rfl (by decide)⟩

end Pman
